import Mathlib

/-!
Verification development for the Secret-Workflow-Companion-Go repository
("ghm", a GitHub management CLI).

The Go sources are shallowly embedded:
* machine bytes are `Nat` values below 256, byte slices are `List Nat`;
* the NaCl `box` primitives (golang.org/x/crypto/nacl/box) are modelled
  symbolically by a toy commutative Diffie-Hellman exchange plus an
  authenticated stream cipher with the same wire layout (32-byte public
  keys, 24-byte nonces, a 16-byte authenticator tag in front of the
  payload, 48 bytes of sealed-box overhead);
* base64 (encoding/base64, StdEncoding) is implemented directly;
* the x509 RSA key parsers are modelled by a DER reader restricted to
  short-form lengths, which is all the claims exercise;
* file system and network effects are explicit state passed through the
  translated functions, with mock environments standing for the GitHub
  API client and the git transport.
-/

namespace GHM

set_option maxRecDepth 40000

/-! Section: Association lists: the model of Go maps and of the JSON documents
backing `secrets.json`, `workflows.json` and `repos.json`. -/

/-- Lookup in an association list (Go map read `m[k]`). -/
def assocFind {β : Type} (m : List (String × β)) (k : String) : Option β :=
  match m with
  | [] => none
  | (k₁, v) :: rest => if k₁ = k then some v else assocFind rest k

/-- Update/insert in an association list (Go map write `m[k] = v`). -/
def assocSet {β : Type} (m : List (String × β)) (k : String) (v : β) :
    List (String × β) :=
  match m with
  | [] => [(k, v)]
  | (k₁, v₁) :: rest =>
      if k₁ = k then (k₁, v) :: rest else (k₁, v₁) :: assocSet rest k v

/-! Section: Bytes and Go's `strings.Split` -/

/-- Little-endian base-256 encoding of `n` into exactly `w` bytes. -/
def encodeLE : Nat → Nat → List Nat
  | 0, _ => []
  | w + 1, n => n % 256 :: encodeLE w (n / 256)

/-- Little-endian base-256 value of a byte list. -/
def decodeLE : List Nat → Nat
  | [] => 0
  | b :: rest => b % 256 + 256 * decodeLE rest

def encode32 (n : Nat) : List Nat := encodeLE 32 n
def encode24 (n : Nat) : List Nat := encodeLE 24 n
def encode16 (n : Nat) : List Nat := encodeLE 16 n

/-- The UTF-8 bytes of a Go string; the development only feeds it ASCII,
where the bytes are the character codes. -/
def strBytes (s : String) : List Nat := s.data.map Char.toNat

/-- Helper for `splitGo`: accumulates the current segment (reversed). -/
def splitGoAux : List Char → List Char → List (List Char)
  | [], acc => [acc.reverse]
  | c :: rest, acc =>
      if c = '/' then acc.reverse :: splitGoAux rest [] else splitGoAux rest (c :: acc)

/-- Model of Go `strings.Split(s, "/")`: splits on every slash and keeps
empty segments, `splitGo "" = [""]`. -/
def splitGo (s : String) : List String :=
  (splitGoAux s.data []).map fun l => String.mk l

/-! Section: base64 (model of encoding/base64 StdEncoding) -/

def b64Alphabet : List Char :=
  "ABCDEFGHIJKLMNOPQRSTUVWXYZabcdefghijklmnopqrstuvwxyz0123456789+/".data

def b64Char (v : Nat) : Char := b64Alphabet.getD v 'A'

/-- Index of a character in the standard base64 alphabet. -/
def b64Val (c : Char) : Option Nat :=
  if 'A' ≤ c ∧ c ≤ 'Z' then some (c.toNat - 65)
  else if 'a' ≤ c ∧ c ≤ 'z' then some (c.toNat - 97 + 26)
  else if '0' ≤ c ∧ c ≤ '9' then some (c.toNat - 48 + 52)
  else if c = '+' then some 62
  else if c = '/' then some 63
  else none

/-- Standard base64 encoding of a byte list, chunked into 3-byte quanta
with `=` padding. -/
def b64EncodeChunks : List Nat → List Char
  | [] => []
  | [b₁] => [b64Char (b₁ / 4), b64Char (b₁ % 4 * 16), '=', '=']
  | [b₁, b₂] => [b64Char (b₁ / 4), b64Char (b₁ % 4 * 16 + b₂ / 16), b64Char (b₂ % 16 * 4), '=']
  | b₁ :: b₂ :: b₃ :: rest =>
      b64Char (b₁ / 4) :: b64Char (b₁ % 4 * 16 + b₂ / 16) ::
        b64Char (b₂ % 16 * 4 + b₃ / 64) :: b64Char (b₃ % 64) :: b64EncodeChunks rest

def base64EncodeBytes (bs : List Nat) : String := String.mk (b64EncodeChunks bs)

/-- Standard base64 decoding in 4-character quanta; `=` padding is only
accepted in the final quantum, as in Go's `StdEncoding.DecodeString`. -/
def b64DecodeChunks : List Char → Option (List Nat)
  | [] => some []
  | c₁ :: c₂ :: c₃ :: c₄ :: rest =>
      match b64Val c₁, b64Val c₂ with
      | some v₁, some v₂ =>
          if c₃ = '=' then
            if c₄ = '=' ∧ rest = [] then some [v₁ * 4 + v₂ / 16] else none
          else
            match b64Val c₃ with
            | some v₃ =>
                if c₄ = '=' then
                  if rest = [] then some [v₁ * 4 + v₂ / 16, v₂ % 16 * 16 + v₃ / 4] else none
                else
                  match b64Val c₄, b64DecodeChunks rest with
                  | some v₄, some tail =>
                      some ((v₁ * 4 + v₂ / 16) :: (v₂ % 16 * 16 + v₃ / 4) ::
                        (v₃ % 4 * 64 + v₄) :: tail)
                  | _, _ => none
            | none => none
      | _, _ => none
  | _ => none

/-- Model of Go `base64.StdEncoding.DecodeString`: newline characters are
ignored, everything else must be alphabet characters in padded 4-quanta;
the empty string is valid and decodes to zero bytes. -/
def base64DecodeString (s : String) : Option (List Nat) :=
  b64DecodeChunks (s.data.filter fun c => c ≠ '\r' ∧ c ≠ '\n')

/-! Section: Symbolic NaCl box (model of golang.org/x/crypto/nacl/box)

The model keeps the exact wire layout of NaCl, replacing Curve25519 by a
toy commutative exchange (`shared(pub a, b) = shared(pub b, a)`) and
XSalsa20-Poly1305 by an invertible masked stream with a 16-byte keyed
tag. What the claims rely on is the key/nonce plumbing, which is
preserved exactly. -/

def natM : Nat := 2 ^ 256

/-- Public key of a scalar (toy curve: the scalar itself, mod 2^256). -/
def curvePub (sk : Nat) : List Nat := encode32 (sk % natM)

/-- Shared secret of a peer's public key and an own scalar; commutative
through `curvePub` because multiplication commutes. -/
def curveShared (pk : List Nat) (sk : Nat) : List Nat :=
  encode32 (decodeLE pk * sk % natM)

/-- Keyed mixing function standing in for the hashes inside the model. -/
def mixHash (seed : Nat) (bs : List Nat) : Nat :=
  bs.foldl (fun a b => (a * 131 + b + 1) % 2 ^ 128) seed

/-- Sixteen-byte authenticator tag of the toy secretbox. -/
def secretboxMac (key nonce msg : List Nat) : List Nat :=
  encode16 (mixHash 7 (key ++ nonce ++ msg))

/-- Self-inverse byte mask keyed by key and nonce. -/
def secretboxMask (key nonce : List Nat) (msg : List Nat) : List Nat :=
  msg.map fun b => b ^^^ (decodeLE key + decodeLE nonce) % 256

/-- Toy secretbox seal: tag then masked payload (16 bytes of overhead,
as in NaCl). -/
def secretboxSeal (key nonce msg : List Nat) : List Nat :=
  secretboxMac key nonce msg ++ secretboxMask key nonce msg

/-- Toy secretbox open: unmask, recompute the tag, compare. -/
def secretboxOpen (key nonce ct : List Nat) : Option (List Nat) :=
  if ct.length < 16 then none
  else
    let tag := ct.take 16
    let msg := secretboxMask key nonce (ct.drop 16)
    if tag = secretboxMac key nonce msg then some msg else none

/-- Model of `box.Seal`: seal under the shared secret of the peer public
key and the own private scalar. -/
def boxSeal (msg nonce pk : List Nat) (sk : Nat) : List Nat :=
  secretboxSeal (curveShared pk sk) nonce msg

/-- The sealed-box nonce, derived from the two public keys (NaCl uses
BLAKE2b of `epk ‖ rpk`; the model uses its own hash). -/
def sealedNonce (epk rpk : List Nat) : List Nat :=
  encode24 (mixHash 11 (epk ++ rpk))

/-- Model of `box.SealAnonymous`: a fresh ephemeral scalar `esk`, wire
format `curvePub esk ‖ box.Seal(msg, sealedNonce, rpk, esk)`. -/
def boxSealAnonymous (msg rpk : List Nat) (esk : Nat) : List Nat :=
  curvePub esk ++ boxSeal msg (sealedNonce (curvePub esk) rpk) rpk esk

/-- Model of `box.OpenAnonymous`: read the ephemeral public key from the
first 32 bytes, re-derive the sealed-box nonce, open the box with the
recipient's private scalar. -/
def boxOpenAnonymous (rsk : Nat) (data : List Nat) : Option (List Nat) :=
  if data.length < 48 then none
  else
    let epk := data.take 32
    let ct := data.drop 32
    secretboxOpen (curveShared epk rsk) (sealedNonce epk (curvePub rsk)) ct

/-- Anonymous sealed-box decryption of a base64 ciphertext, the inverse
direction of the round-trip property in the spec. -/
def decryptSealedB64 (rsk : Nat) (ctB64 : String) : Option (List Nat) :=
  (base64DecodeString ctB64).bind (boxOpenAnonymous rsk)

/-! Section: The Encryptor (ghm.go `EncryptorImpl` and encrypt.go `EncryptSecret`)

Each constructor of `EncErr` is one distinct error site of the Go
sources. The spec's error taxonomy groups them: `InvalidKey` covers
`invalidKeyProvided` (nil key) and `decodeFailed` (base64 failure);
`UnsupportedKeyFormat` covers `parseRSAFailed` and `notRSAKey`. -/

inductive EncErr where
  /-- ghm.go:39 / encrypt.go:26 "invalid public key provided" (nil key). -/
  | invalidKeyProvided
  /-- ghm.go:45 "failed to decode public key" (base64 error). -/
  | decodeFailed
  /-- encrypt.go:47 "invalid public key length" (decoded length not 32). -/
  | invalidKeyLength
  /-- ghm.go:77 "failed to parse RSA public key" (both DER parses fail). -/
  | parseRSAFailed
  /-- ghm.go:84 "public key is not an RSA public key". -/
  | notRSAKey
  /-- ghm.go:91 "failed to encrypt secret using RSA" (OAEP failure). -/
  | oaepMessageTooLong
deriving DecidableEq, Repr

/-- The spec's `InvalidKey` error class over the source error sites. -/
def specInvalidKey (e : EncErr) : Prop :=
  e = EncErr.invalidKeyProvided ∨ e = EncErr.decodeFailed

/-- The spec's `UnsupportedKeyFormat` error class over the source error
sites. -/
def specUnsupportedKeyFormat (e : EncErr) : Prop :=
  e = EncErr.parseRSAFailed ∨ e = EncErr.notRSAKey

/-- Result of the x509 public-key parsers. -/
inductive ParsedPublicKey where
  | rsa (n e : Nat)
  | other
deriving DecidableEq, Repr

/-- Big-endian value of a DER integer body. -/
def beValue (bs : List Nat) : Nat := bs.foldl (fun a b => a * 256 + b) 0

/-- DER INTEGER at the front of `bs`: tag 0x02, short-form length,
returns the value and the remainder. Model of the integer fields read by
crypto/x509, restricted to short-form lengths. -/
def derInt (bs : List Nat) : Option (Nat × List Nat) :=
  match bs with
  | 2 :: l :: rest =>
      if 0 < l ∧ l < 128 ∧ l ≤ rest.length then
        some (beValue (rest.take l), rest.drop l)
      else none
  | _ => none

/-- Model of `x509.ParsePKCS1PublicKey`: SEQUENCE of two INTEGERs
(modulus, exponent) spanning the whole input; short-form lengths only. -/
def derParsePKCS1PublicKey (bs : List Nat) : Option ParsedPublicKey :=
  match bs with
  | 48 :: l :: body =>
      if l < 128 ∧ l = body.length then
        match derInt body with
        | some (n, r₁) =>
            match derInt r₁ with
            | some (e, r₂) => if r₂ = [] then some (ParsedPublicKey.rsa n e) else none
            | none => none
        | none => none
      else none
  | _ => none

/-- DER encoding of the rsaEncryption OID plus the NULL parameter, as it
appears inside a SubjectPublicKeyInfo AlgorithmIdentifier. -/
def rsaOidNull : List Nat := [6, 9, 42, 134, 72, 134, 247, 13, 1, 1, 1, 5, 0]

/-- Model of `x509.ParsePKIXPublicKey`: SEQUENCE of an
AlgorithmIdentifier SEQUENCE and a BIT STRING wrapping the PKCS1 key;
an unknown algorithm with well-formed structure parses to a non-RSA
key. Short-form lengths only. -/
def derParsePKIXPublicKey (bs : List Nat) : Option ParsedPublicKey :=
  match bs with
  | 48 :: l :: body =>
      if l < 128 ∧ l = body.length then
        match body with
        | 48 :: lAlg :: rest =>
            if lAlg < 128 ∧ lAlg ≤ rest.length then
              match rest.drop lAlg with
              | 3 :: lBit :: 0 :: inner =>
                  if lBit < 128 ∧ lBit = inner.length + 1 then
                    if rest.take lAlg = rsaOidNull then derParsePKCS1PublicKey inner
                    else some ParsedPublicKey.other
                  else none
              | _ => none
            else none
        | _ => none
      else none
  | _ => none

/-- Byte size of the RSA modulus (Go `pub.Size()`). -/
def rsaModulusBytes (n : Nat) : Nat := Nat.log 256 n + 1

/-- Model of `rsa.EncryptOAEP` with SHA-256: fails when the message
exceeds `k - 2*32 - 2` bytes, otherwise produces a `k`-byte ciphertext
derived from the key, the message and the entropy. -/
def rsaEncryptOAEP (n e : Nat) (msg : List Nat) (entropy : Nat) :
    Except EncErr (List Nat) :=
  let k := rsaModulusBytes n
  if k < msg.length + 66 then Except.error EncErr.oaepMessageTooLong
  else Except.ok (encodeLE k ((mixHash entropy msg + n + e) % 2 ^ (8 * k)))

/-- ghm.go:72-96 `encryptRSA`: `ParsePKIXPublicKey` first, falling back
to `ParsePKCS1PublicKey`; asserts the parsed key is RSA; RSA-OAEP with
SHA-256 and empty label; base64 output. -/
def encryptRSA (secretValue : String) (publicKey : List Nat) (entropy : Nat) :
    Except EncErr String :=
  match (match derParsePKIXPublicKey publicKey with
         | some k => some k
         | none => derParsePKCS1PublicKey publicKey) with
  | none => Except.error EncErr.parseRSAFailed
  | some ParsedPublicKey.other => Except.error EncErr.notRSAKey
  | some (ParsedPublicKey.rsa n e) =>
      match rsaEncryptOAEP n e (strBytes secretValue) entropy with
      | Except.error er => Except.error er
      | Except.ok ct => Except.ok (base64EncodeBytes ct)

/-- ghm.go:58-69 `encryptNaCl`: `box.SealAnonymous` on the 32-byte key,
base64 output. `esk` is the ephemeral scalar drawn from `rand.Reader`
inside `SealAnonymous`. -/
def encryptNaCl (secretValue : String) (publicKey : List Nat) (esk : Nat) : String :=
  base64EncodeBytes (boxSealAnonymous (strBytes secretValue) publicKey esk)

/-- ghm.go:37-55 `EncryptorImpl.Encrypt`: nil-key check, base64 decode,
32-byte keys to the NaCl sealed box, everything else to the RSA path.
`publicKey = none` models a nil `github.PublicKey.Key` pointer. -/
def Encrypt (secretValue : String) (publicKey : Option String) (entropy : Nat) :
    Except EncErr String :=
  match publicKey with
  | none => Except.error EncErr.invalidKeyProvided
  | some key =>
      match base64DecodeString key with
      | none => Except.error EncErr.decodeFailed
      | some keyBytes =>
          if keyBytes.length = 32 then Except.ok (encryptNaCl secretValue keyBytes entropy)
          else encryptRSA secretValue keyBytes entropy

/-- encrypt.go:39-79 `EncryptSecret`: decodes the key, requires exactly
32 bytes, then draws THREE independent random values — `ephPub`,
`ephPriv` and `nonce` (`r₁`, `r₂`, `r₃` here; note `ephPub` is NOT
derived from `ephPriv`) — seals with `box.Seal(msg, nonce, pk, ephPriv)`
and emits `ephPub ‖ nonce ‖ ciphertext` in base64. -/
def EncryptSecret (publicKey secretValue : String) (r₁ r₂ r₃ : Nat) :
    Except EncErr String :=
  match base64DecodeString publicKey with
  | none => Except.error EncErr.decodeFailed
  | some pubKeyBytes =>
      if pubKeyBytes.length ≠ 32 then Except.error EncErr.invalidKeyLength
      else
        let ephPub := encode32 r₁
        let ephPriv := encode32 r₂
        let nonce := encode24 r₃
        let ciphertext := boxSeal (strBytes secretValue) nonce pubKeyBytes (decodeLE ephPriv)
        Except.ok (base64EncodeBytes (ephPub ++ nonce ++ ciphertext))

/-- A 32-byte test public key (the toy curve point of scalar 5),
base64-encoded the way GitHub's API serves repository keys. -/
def keyFor5 : String := base64EncodeBytes (curvePub 5)

/-! Section: Local state store and the secret publish pipeline (main.go) -/

/-- ghm.go:236-240 `RepoConfig`: one repository's sync record. -/
structure RepoCfg where
  secrets : List String
  workflows : List String
  lastUpdate : String
deriving DecidableEq, Repr

/-- The local JSON files the CLI persists to. `none` models a file that
does not exist; a present file is modelled as the well-formed map it
decodes to (`secretsWritable` is whether `os.Create("secrets.json")`
succeeds). -/
structure LocalFS where
  secretsFile : Option (List (String × String))
  workflowsFile : Option (List (String × String))
  reposFile : Option (List (String × RepoCfg))
  secretsWritable : Bool
deriving DecidableEq

/-- The `github.PublicKey` response: both fields are pointers in Go,
hence `Option`. -/
structure PublicKeyResp where
  keyId : Option String
  key : Option String
deriving DecidableEq

/-- Mock of the GitHub API client for one `AddSecret` run:
`fetchKey = none` is a failing `GetRepoPublicKey` call, `upsertOk` is
the outcome of `CreateOrUpdateRepoSecret`. -/
structure SecretEnv where
  fetchKey : Option PublicKeyResp
  upsertOk : Bool
deriving DecidableEq

/-- I/O counters observed during a run (network calls, local file reads
and writes). -/
structure Trace where
  apiCalls : Nat
  diskReads : Nat
  diskWrites : Nat
deriving DecidableEq, Repr

/-- Error outcomes of `AddSecretStrategy.Execute`, one constructor per
`return`-with-error site of main.go:65-123. -/
inductive ExecErr where
  | invalidRepoFormat
  | remoteError
  | encryptFailed (e : EncErr)
  | keyIdNil
  | upsertFailed
deriving DecidableEq, Repr

/-- main.go:381-411 `saveSecretLocally`: read `secrets.json` when it
exists (decode errors are ignored by the source), set the entry, rewrite
the whole file with `os.Create`; every error is printed and swallowed —
the function returns nothing. Returns the new file system and the I/O
trace of the call. -/
def saveSecretLocally (secretName secretValue : String) (fs : LocalFS) :
    LocalFS × Trace :=
  let m := fs.secretsFile.getD []
  let m₂ := assocSet m secretName secretValue
  if fs.secretsWritable then
    ({ fs with secretsFile := some m₂ }, ⟨0, 1, 1⟩)
  else
    (fs, ⟨0, 1, 0⟩)

deriving instance DecidableEq for Except

/-- Arguments of `AddSecretStrategy` (main.go:42-48). -/
structure SecretArgs where
  token : String
  repo : String
  secretName : String
  secretValue : String

/-- Outcome of one `AddSecretStrategy.Execute` run. -/
structure SecretRun where
  result : Except ExecErr Unit
  fs : LocalFS
  trace : Trace
deriving DecidableEq

/-- main.go:65-123 `AddSecretStrategy.Execute`, step by step: split the
repository on "/" and require exactly two parts (no emptiness check on
the parts, no check on the secret name); fetch the repository public
key; encrypt; check `KeyID` for nil (after encryption, as in the
source); create-or-update the remote secret; only then
`saveSecretLocally`, whose errors are swallowed, and return nil. -/
def ExecuteAddSecret (a : SecretArgs) (env : SecretEnv) (fs : LocalFS)
    (entropy : Nat) : SecretRun :=
  let parts := splitGo a.repo
  if parts.length ≠ 2 then ⟨Except.error ExecErr.invalidRepoFormat, fs, ⟨0, 0, 0⟩⟩
  else
    match env.fetchKey with
    | none => ⟨Except.error ExecErr.remoteError, fs, ⟨1, 0, 0⟩⟩
    | some pk =>
        match Encrypt a.secretValue pk.key entropy with
        | Except.error e => ⟨Except.error (ExecErr.encryptFailed e), fs, ⟨1, 0, 0⟩⟩
        | Except.ok _encryptedValue =>
            match pk.keyId with
            | none => ⟨Except.error ExecErr.keyIdNil, fs, ⟨1, 0, 0⟩⟩
            | some _kid =>
                if env.upsertOk then
                  let sv := saveSecretLocally a.secretName a.secretValue fs
                  ⟨Except.ok (), sv.1, ⟨2, sv.2.diskReads, sv.2.diskWrites⟩⟩
                else ⟨Except.error ExecErr.upsertFailed, fs, ⟨2, 0, 0⟩⟩

/-- Error outcomes of the local store readers (ghm.go:309-368). -/
inductive StoreErr where
  | fileMissing
  | keyMissing
deriving DecidableEq, Repr

/-- ghm.go:309-337 `getSecretValue`: errors when `secrets.json` does not
exist or the name is absent. -/
def getSecretValue (fs : LocalFS) (secretName : String) : Except StoreErr String :=
  match fs.secretsFile with
  | none => Except.error StoreErr.fileMissing
  | some m =>
      match assocFind m secretName with
      | none => Except.error StoreErr.keyMissing
      | some v => Except.ok v

/-- ghm.go:340-368 `getWorkflowContent`: same contract over
`workflows.json`. -/
def getWorkflowContent (fs : LocalFS) (workflowName : String) :
    Except StoreErr String :=
  match fs.workflowsFile with
  | none => Except.error StoreErr.fileMissing
  | some m =>
      match assocFind m workflowName with
      | none => Except.error StoreErr.keyMissing
      | some v => Except.ok v

/-! Section: The workflow publish pipeline (main.go `AddWorkflowStrategy`) -/

/-- Arguments of `AddWorkflowStrategy` (main.go:51-56). -/
structure WfArgs where
  token : String
  repo : String
  workflowName : String
  content : String

/-- The remote repository as the git transport sees it: the committed
tree (path to content) and the head commit, modelled as a counter so
that every new commit is distinct from every previous head. -/
structure Remote where
  files : List (String × String)
  head : Nat
deriving DecidableEq

/-- Mock of the fallible collaborators of one `AddWorkflow` run:
temporary-directory creation, `git.PlainClone`, the local worktree and
file writes, and the network push. -/
structure WfEnv where
  tmpDirOk : Bool
  cloneOk : Bool
  writeOk : Bool
  pushOk : Bool
deriving DecidableEq

/-- Error outcomes of `AddWorkflowStrategy.Execute` (main.go:126-229). -/
inductive WfErr where
  | invalidRepoFormat
  | tmpDirError
  | cloneError
  | writeError
  | pushError
deriving DecidableEq, Repr

/-- Outcome of one `AddWorkflowStrategy.Execute` run. -/
structure WfRun where
  result : Except WfErr Unit
  remote : Remote
deriving DecidableEq

/-- The path written under the working copy root
(`.github/workflows/<name>`, main.go:173-181). -/
def workflowFilePath (name : String) : String := ".github/workflows/" ++ name

/-- main.go:126-229 `AddWorkflowStrategy.Execute`: split the repository
on "/" (two parts required); create a temporary directory and always
clone into it; write `.github/workflows/<name>` (overwriting); stage it;
commit — the pinned go-git v5.4.2 creates the commit even when the tree
is unchanged (the `ErrEmptyCommit` guard only exists from v5.5.0), so
the commit step cannot fail on identical content; push, where
`git.NoErrAlreadyUpToDate` is explicitly treated as success
(main.go:221). -/
def ExecuteAddWorkflow (a : WfArgs) (env : WfEnv) (rem : Remote) : WfRun :=
  let parts := splitGo a.repo
  if parts.length ≠ 2 then ⟨Except.error WfErr.invalidRepoFormat, rem⟩
  else if env.tmpDirOk = false then ⟨Except.error WfErr.tmpDirError, rem⟩
  else if env.cloneOk = false then ⟨Except.error WfErr.cloneError, rem⟩
  else if env.writeOk = false then ⟨Except.error WfErr.writeError, rem⟩
  else
    let files₂ := assocSet rem.files (workflowFilePath a.workflowName) a.content
    let newHead := rem.head + 1
    if rem.head = newHead then ⟨Except.ok (), rem⟩
    else if env.pushOk then ⟨Except.ok (), ⟨files₂, newHead⟩⟩
    else ⟨Except.error WfErr.pushError, rem⟩

/-! Section: The Acquiring step of the exec-git revision
(src/unnamed/part_004:305-338) -/

/-- part_004:378-381 `RepoDirectory`: the repository's short name,
`parts[len(parts)-1]` of the split on "/". -/
def RepoDirectory (repo : String) : String := (splitGo repo).getLastD ""

/-- What the Acquiring step decides to do: operate in the current
directory, run `git clone url target` (with the token in the command
environment), or reuse an existing directory without cloning. -/
inductive Acquire where
  | inPlace (workDir : String)
  | cloneInto (url target tokenEnv : String)
  | reuseExisting (dir : String)
  | cloneFailed
deriving DecidableEq, Repr

/-- part_004:305-338, the Acquiring prefix of
`AddWorkflowStrategy.Execute`: when the current working directory's base
name equals the short name, run in place; otherwise clone
`https://github.com/<repo>.git` into the directory named by the short
name when no such directory exists; otherwise reuse that directory. -/
def acquireWorkdir (repo token cwdBase cwdPath : String)
    (dirExists cloneOk : Bool) : Acquire :=
  let repoDir := RepoDirectory repo
  if cwdBase = repoDir then Acquire.inPlace cwdPath
  else if dirExists = false then
    if cloneOk then
      Acquire.cloneInto ("https://github.com/" ++ repo ++ ".git") repoDir token
    else Acquire.cloneFailed
  else Acquire.reuseExisting repoDir

/-- Formalisation of claim C8's own wording of the Acquiring step, for
comparison with `acquireWorkdir`: identical except that the clone
destination is a scoped temporary location (`tempDir`), not the
directory named after the repository. -/
def acquireWorkdirClaimC8 (repo token cwdBase cwdPath tempDir : String)
    (dirExists cloneOk : Bool) : Acquire :=
  let short := RepoDirectory repo
  if cwdBase = short then Acquire.inPlace cwdPath
  else if dirExists = false then
    if cloneOk then
      Acquire.cloneInto ("https://github.com/" ++ repo ++ ".git") tempDir token
    else Acquire.cloneFailed
  else Acquire.reuseExisting short

/-! Section: Batch apply (ghm.go `AddSecretsToRepo` / `AddWorkflowsToRepo`) -/

/-- The repos.json update block shared by both batch loops
(ghm.go:176-186 and 212-222): take the existing record or a fresh empty
one, append the secret name, refresh the timestamp, store it back. -/
def updateRepoSecrets (rc : List (String × RepoCfg)) (target name now : String) :
    List (String × RepoCfg) :=
  let cfg := match assocFind rc target with
    | some c => c
    | none => ⟨[], [], now⟩
  assocSet rc target { cfg with secrets := cfg.secrets ++ [name], lastUpdate := now }

/-- The workflow-side repos.json update block (ghm.go:212-222). -/
def updateRepoWorkflows (rc : List (String × RepoCfg)) (target name now : String) :
    List (String × RepoCfg) :=
  let cfg := match assocFind rc target with
    | some c => c
    | none => ⟨[], [], now⟩
  assocSet rc target { cfg with workflows := cfg.workflows ++ [name], lastUpdate := now }

/-- ghm.go:159-192 `AddSecretsToRepo`: for each saved name, read the
value from `secrets.json` and run the full secret pipeline; on either
failure log and `continue`; on success append the name to the target's
record; finally return nil. `envOf`/`entOf` give the per-item API mock
and entropy. -/
def AddSecretsToRepo (token targetRepo : String) (names : List String)
    (envOf : String → SecretEnv) (entOf : String → Nat) (fs : LocalFS)
    (rc : List (String × RepoCfg)) (now : String) :
    Except ExecErr Unit × LocalFS × List (String × RepoCfg) :=
  match names with
  | [] => (Except.ok (), fs, rc)
  | n :: rest =>
      match getSecretValue fs n with
      | Except.error _ => AddSecretsToRepo token targetRepo rest envOf entOf fs rc now
      | Except.ok v =>
          let run := ExecuteAddSecret ⟨token, targetRepo, n, v⟩ (envOf n) fs (entOf n)
          match run.result with
          | Except.error _ =>
              AddSecretsToRepo token targetRepo rest envOf entOf run.fs rc now
          | Except.ok _ =>
              AddSecretsToRepo token targetRepo rest envOf entOf run.fs
                (updateRepoSecrets rc targetRepo n now) now

/-- ghm.go:195-228 `AddWorkflowsToRepo`: the same best-effort loop over
saved workflows, threading the remote repository through the pushes. -/
def AddWorkflowsToRepo (token targetRepo : String) (names : List String)
    (envOf : String → WfEnv) (fs : LocalFS) (rem : Remote)
    (rc : List (String × RepoCfg)) (now : String) :
    Except WfErr Unit × Remote × List (String × RepoCfg) :=
  match names with
  | [] => (Except.ok (), rem, rc)
  | n :: rest =>
      match getWorkflowContent fs n with
      | Except.error _ => AddWorkflowsToRepo token targetRepo rest envOf fs rem rc now
      | Except.ok content =>
          let run := ExecuteAddWorkflow ⟨token, targetRepo, n, content⟩ (envOf n) rem
          match run.result with
          | Except.error _ =>
              AddWorkflowsToRepo token targetRepo rest envOf fs run.remote rc now
          | Except.ok _ =>
              AddWorkflowsToRepo token targetRepo rest envOf fs run.remote
                (updateRepoWorkflows rc targetRepo n now) now

/-- The secrets recorded for a repository, empty when it has no record. -/
def repoSecretsOf (rc : List (String × RepoCfg)) (k : String) : List String :=
  match assocFind rc k with
  | some c => c.secrets
  | none => []

/-- The workflows recorded for a repository, empty when it has no
record. -/
def repoWorkflowsOf (rc : List (String × RepoCfg)) (k : String) : List String :=
  match assocFind rc k with
  | some c => c.workflows
  | none => []

/-- Per-item success predicate of the secret batch: the name resolves in
the store and the pipeline run for it succeeds. -/
def secItemOk (token targetRepo : String) (envOf : String → SecretEnv)
    (entOf : String → Nat) (fs : LocalFS) (n : String) : Bool :=
  match getSecretValue fs n with
  | Except.error _ => false
  | Except.ok v =>
      match (ExecuteAddSecret ⟨token, targetRepo, n, v⟩ (envOf n) fs (entOf n)).result with
      | Except.ok _ => true
      | Except.error _ => false

/-- Per-item success predicate of the workflow batch; workflow pipeline
success depends only on the mock collaborator flags and the repository
format, never on the evolving remote, so the run outcome is probed at a
fixed empty remote. -/
def wfItemOk (token targetRepo : String) (envOf : String → WfEnv) (fs : LocalFS)
    (n : String) : Bool :=
  match getWorkflowContent fs n with
  | Except.error _ => false
  | Except.ok content =>
      match (ExecuteAddWorkflow ⟨token, targetRepo, n, content⟩ (envOf n) ⟨[], 0⟩).result with
      | Except.ok _ => true
      | Except.error _ => false

/-! Section: The CLI validation layer (src/cmd.go `initAddSecretCmd`) -/

/-- Error outcomes of the add-secret command's own validation. -/
inductive CmdErr where
  | repoNotSpecified
  | invalidRepoFormat
  | secretNameNotProvided
deriving DecidableEq, Repr

/-- cmd.go:64-110 (`initAddSecretCmd` RunE) validation, performed before
the pipeline is constructed: non-empty repository, repository contains a
slash, non-empty secret name. -/
def addSecretCmdValidate (repo secretName : String) : Option CmdErr :=
  if repo = "" then some CmdErr.repoNotSpecified
  else if (repo.data.contains '/') = false then some CmdErr.invalidRepoFormat
  else if secretName = "" then some CmdErr.secretNameNotProvided
  else none

/-! Section: Concrete sample inputs used by witnesses and counterexamples -/

/-- A base64 key of 32 zero bytes (a valid sealed-box key). -/
def zeroKey32 : String := base64EncodeBytes (encode32 0)

/-- An initially empty but existing local store with writable
`secrets.json`. -/
def sampleFS : LocalFS := ⟨some [], some [], some [], true⟩

/-- The same store with `secrets.json` unwritable. -/
def sampleFSUnwritable : LocalFS := ⟨some [], some [], some [], false⟩

/-- A fully successful API mock serving the 32-byte test key. -/
def envOk : SecretEnv := ⟨some ⟨some "kid1", some keyFor5⟩, true⟩

/-- An API mock whose upsert call fails. -/
def envUpsertFail : SecretEnv := ⟨some ⟨some "kid1", some keyFor5⟩, false⟩

/-- An API mock whose key fetch fails. -/
def envFetchFail : SecretEnv := ⟨none, true⟩

/-- A fully successful git mock. -/
def wfEnvOk : WfEnv := ⟨true, true, true, true⟩

/-! Section: Helper lemmas on association lists and the pipeline -/

theorem assocFind_assocSet_self {β : Type} (m : List (String × β)) (k : String) (v : β) :
    assocFind (assocSet m k v) k = some v := by
  induction m with
  | nil => simp [assocFind, assocSet]
  | cons p rest ih =>
      obtain ⟨k₁, v₁⟩ := p
      by_cases h : k₁ = k <;> simp [assocFind, assocSet, h, ih]

theorem assocFind_assocSet_ne {β : Type} (m : List (String × β)) (k k₂ : String) (v : β)
    (h : k₂ ≠ k) : assocFind (assocSet m k v) k₂ = assocFind m k₂ := by
  have hne : k ≠ k₂ := fun hh => h hh.symm
  induction m with
  | nil => simp [assocFind, assocSet, hne]
  | cons p rest ih =>
      obtain ⟨k₁, v₁⟩ := p
      by_cases h₁ : k₁ = k
      · subst h₁
        simp [assocFind, assocSet, hne]
      · simp [assocFind, assocSet, h₁, ih]

theorem assocSet_eq_of_find {β : Type} (m : List (String × β)) (k : String) (v : β)
    (h : assocFind m k = some v) : assocSet m k v = m := by
  induction m with
  | nil => simp [assocFind] at h
  | cons p rest ih =>
      obtain ⟨k₁, v₁⟩ := p
      by_cases h₁ : k₁ = k
      · simp only [assocFind, if_pos h₁, Option.some.injEq] at h
        simp [assocSet, h₁, h]
      · simp only [assocFind, if_neg h₁] at h
        simp [assocSet, h₁, ih h]

theorem saveSecretLocally_fs_of_find (n v : String) (fs : LocalFS)
    (m : List (String × String)) (hf : fs.secretsFile = some m)
    (hm : assocFind m n = some v) : (saveSecretLocally n v fs).1 = fs := by
  unfold saveSecretLocally
  rw [hf]
  simp only [Option.getD_some, assocSet_eq_of_find m n v hm]
  cases hw : fs.secretsWritable
  · simp
  · simp only [if_pos rfl]
    cases fs with
    | mk sf wff rf w => simp_all

theorem getSecretValue_ok_elim (fs : LocalFS) (n v : String)
    (h : getSecretValue fs n = Except.ok v) :
    ∃ m, fs.secretsFile = some m ∧ assocFind m n = some v := by
  unfold getSecretValue at h
  cases hf : fs.secretsFile with
  | none => simp [hf] at h
  | some m =>
      rw [hf] at h
      cases hm : assocFind m n with
      | none => simp [hm] at h
      | some v₂ =>
          simp [hm] at h
          exact ⟨m, rfl, by rw [hm, h]⟩

theorem exec_fs_of_store (t r n v : String) (env : SecretEnv) (fs : LocalFS) (e : Nat)
    (h : getSecretValue fs n = Except.ok v) :
    (ExecuteAddSecret ⟨t, r, n, v⟩ env fs e).fs = fs := by
  obtain ⟨m, hf, hm⟩ := getSecretValue_ok_elim fs n v h
  have hsave := saveSecretLocally_fs_of_find n v fs m hf hm
  simp only [ExecuteAddSecret]
  repeat' split
  all_goals first | rfl | exact hsave

/-! Section: Claim theorems -/

/-- Contrast fact for claim C1: the ghm.go sealed-box path
(`box.SealAnonymous`) round-trips — at the very key and plaintext where
`EncryptSecret` fails, `encryptNaCl` output decrypts back to the
plaintext under the recipient private key. -/
theorem encryptNaCl_roundtrip_at_key5 :
    decryptSealedB64 5 (encryptNaCl "hello" (curvePub 5) 3) = some (strBytes "hello") := by
  decide

/-- Claim C1: FALSE of encrypt.go's `EncryptSecret`. The key
`keyFor5` decodes to exactly 32 bytes, yet the ciphertext produced by
`EncryptSecret` yields nothing under anonymous sealed-box decryption
with the matching private key: the function emits
`ephPub ‖ nonce ‖ box.Seal(msg, nonce, pk, ephPriv)` where `ephPub` is
random bytes unrelated to `ephPriv`, which is not the sealed-box format
and uses a broken ephemeral "keypair". -/
theorem EncryptSecret_sealedbox_roundtrip_fails :
    (base64DecodeString keyFor5).map List.length = some 32 ∧
      (EncryptSecret keyFor5 "hello" 3 4 7).map (decryptSealedB64 5) = Except.ok none := by
  decide

/-- Claim C3 counterexample: with the empty key material string,
`Encrypt` does not fail with the InvalidKey class — the empty string is
valid base64 (zero bytes), falls through to the RSA path, and fails with
the parse error of the UnsupportedKeyFormat class. -/
theorem empty_key_not_invalidKey_cex :
    Encrypt "hello" (some "") 0 = Except.error EncErr.parseRSAFailed ∧
      ¬ specInvalidKey EncErr.parseRSAFailed :=
  ⟨by decide, by simp [specInvalidKey]⟩

/-- Claim C3 (amended): a nil key fails with the InvalidKey class
(`invalidKeyProvided`); a non-base64 key string fails with the
InvalidKey class (`decodeFailed`); key material that decodes (the empty
string included) to something that is neither 32 bytes long nor
parseable in either RSA format fails with the UnsupportedKeyFormat
class (`parseRSAFailed`). -/
theorem encrypt_error_taxonomy_amended (s km : String) (bs : List Nat) (entropy : Nat) :
    Encrypt s none entropy = Except.error EncErr.invalidKeyProvided ∧
      (base64DecodeString km = none →
        Encrypt s (some km) entropy = Except.error EncErr.decodeFailed) ∧
      (base64DecodeString km = some bs → bs.length ≠ 32 →
        derParsePKIXPublicKey bs = none → derParsePKCS1PublicKey bs = none →
        Encrypt s (some km) entropy = Except.error EncErr.parseRSAFailed) := by
  refine ⟨rfl, ?_, ?_⟩
  · intro hd
    simp [Encrypt, hd]
  · intro hd h32 hp hq
    simp [Encrypt, hd, h32, encryptRSA, hp, hq]

/-- Witness for the amended claim C3 at concrete keys: `"!!!!"` is not
base64; `"AAAA"` decodes to three zero bytes which parse in neither RSA
format. -/
theorem encrypt_error_taxonomy_amended_witness :
    Encrypt "m" (some "!!!!") 0 = Except.error EncErr.decodeFailed ∧
      Encrypt "m" (some "AAAA") 0 = Except.error EncErr.parseRSAFailed :=
  ⟨(encrypt_error_taxonomy_amended "m" "!!!!" [] 0).2.1 (by decide),
   (encrypt_error_taxonomy_amended "m" "AAAA" [0, 0, 0] 0).2.2 (by decide) (by decide)
     (by decide) (by decide)⟩

/-- Claim C2: when the remote create-or-update call does not succeed,
the local file system is exactly as before the pipeline run and the run
does not report success — the local store is only written after the
remote upsert succeeded. -/
theorem upsert_failure_leaves_local_store_unchanged (a : SecretArgs) (env : SecretEnv)
    (fs : LocalFS) (entropy : Nat) (h : env.upsertOk = false) :
    (ExecuteAddSecret a env fs entropy).fs = fs ∧
      (ExecuteAddSecret a env fs entropy).result ≠ Except.ok () := by
  simp only [ExecuteAddSecret]
  repeat' split
  all_goals simp_all

/-- Witness for claim C2 at a concrete failing upsert. -/
theorem upsert_failure_leaves_local_store_unchanged_witness :
    (ExecuteAddSecret ⟨"tok", "acme/widgets", "API_KEY", "v"⟩ envUpsertFail sampleFS 0).fs =
        sampleFS ∧
      (ExecuteAddSecret ⟨"tok", "acme/widgets", "API_KEY", "v"⟩ envUpsertFail sampleFS 0).result ≠
        Except.ok () :=
  upsert_failure_leaves_local_store_unchanged _ _ _ _ rfl

/-- Claim C4 counterexample: the repository `"owner/"` splits into two
segments with the second empty, yet the pipeline does not fail with
InvalidRepoFormat — it reaches the network (one API call, failing at
the key fetch); and with an empty secret name the pipeline runs to
success: it contains no MissingField check at all. -/
theorem pipeline_validation_gaps_cex :
    (ExecuteAddSecret ⟨"tok", "owner/", "NAME", "v"⟩ envFetchFail sampleFS 0).result =
        Except.error ExecErr.remoteError ∧
      (ExecuteAddSecret ⟨"tok", "owner/", "NAME", "v"⟩ envFetchFail sampleFS 0).trace.apiCalls =
        1 ∧
      (ExecuteAddSecret ⟨"tok", "acme/widgets", "", "v"⟩ envOk sampleFS 0).result =
        Except.ok () := by
  refine ⟨by decide, by decide, by decide⟩

/-- Claim C4 (amended): the pipeline fails with InvalidRepoFormat —
before any network or disk access, leaving the store untouched —
exactly when the split on "/" does not yield two segments, empty
segments being accepted; the empty-secret-name check is not in the
pipeline but in the CLI command layer, which rejects the empty name
before the pipeline is constructed. -/
theorem repo_format_validation_amended (a : SecretArgs) (env : SecretEnv) (fs : LocalFS)
    (entropy : Nat) (repo name : String) (h : (splitGo a.repo).length ≠ 2)
    (hr : repo ≠ "") (hs : repo.data.contains '/' = true) (hn : name = "") :
    ((ExecuteAddSecret a env fs entropy).result = Except.error ExecErr.invalidRepoFormat ∧
      (ExecuteAddSecret a env fs entropy).fs = fs ∧
      (ExecuteAddSecret a env fs entropy).trace = ⟨0, 0, 0⟩) ∧
      addSecretCmdValidate repo name = some CmdErr.secretNameNotProvided := by
  constructor
  · simp only [ExecuteAddSecret]
    rw [if_pos h]
    exact ⟨rfl, rfl, rfl⟩
  · simp only [addSecretCmdValidate]
    rw [if_neg hr, if_neg (by rw [hs]; decide), if_pos hn]

/-- Witness for the amended claim C4 at a slash-free repository and an
empty secret name. -/
theorem repo_format_validation_amended_witness :
    (((ExecuteAddSecret ⟨"tok", "abc", "N", "v"⟩ envOk sampleFS 0).result =
          Except.error ExecErr.invalidRepoFormat ∧
        (ExecuteAddSecret ⟨"tok", "abc", "N", "v"⟩ envOk sampleFS 0).fs = sampleFS ∧
        (ExecuteAddSecret ⟨"tok", "abc", "N", "v"⟩ envOk sampleFS 0).trace = ⟨0, 0, 0⟩) ∧
      addSecretCmdValidate "a/b" "" = some CmdErr.secretNameNotProvided) :=
  repo_format_validation_amended ⟨"tok", "abc", "N", "v"⟩ envOk sampleFS 0 "a/b" ""
    (by decide) (by decide) (by decide) rfl

/-- Claim C5 counterexample: the end-to-end successful
`AddSecret("acme/widgets", "API_KEY", "sk_live_123")` writes the secret
map but leaves `repos.json` untouched — the repository record gets no
entry, contradicting the claim that the name is appended to it. -/
theorem addSecret_no_repo_record_cex :
    (ExecuteAddSecret ⟨"tok", "acme/widgets", "API_KEY", "sk_live_123"⟩ envOk sampleFS
          0).result = Except.ok () ∧
      (ExecuteAddSecret ⟨"tok", "acme/widgets", "API_KEY", "sk_live_123"⟩ envOk sampleFS
            0).fs.secretsFile = some [("API_KEY", "sk_live_123")] ∧
      (ExecuteAddSecret ⟨"tok", "acme/widgets", "API_KEY", "sk_live_123"⟩ envOk sampleFS
            0).fs.reposFile = some [] ∧
      repoSecretsOf
          ((ExecuteAddSecret ⟨"tok", "acme/widgets", "API_KEY", "sk_live_123"⟩ envOk sampleFS
                0).fs.reposFile.getD []) "acme/widgets" = [] := by
  refine ⟨by decide, by decide, by decide, by decide⟩

/-- Claim C5 (amended): after a successful single `AddSecret` run the
local secret map contains the entry for the name with the given value,
and the repository records file is unchanged — `RepositoryRecord`
updates are performed only by the batch operations, never by the
single-secret pipeline. -/
theorem addSecret_success_persists_secret_only (a : SecretArgs) (env : SecretEnv)
    (fs : LocalFS) (entropy : Nat) (pk : PublicKeyResp) (kid km : String) (kb : List Nat)
    (hrepo : (splitGo a.repo).length = 2) (hpk : env.fetchKey = some pk)
    (hkm : pk.key = some km) (hdec : base64DecodeString km = some kb)
    (h32 : kb.length = 32) (hkid : pk.keyId = some kid) (hup : env.upsertOk = true)
    (hw : fs.secretsWritable = true) :
    (ExecuteAddSecret a env fs entropy).result = Except.ok () ∧
      ((ExecuteAddSecret a env fs entropy).fs.secretsFile.bind fun m =>
        assocFind m a.secretName) = some a.secretValue ∧
      (ExecuteAddSecret a env fs entropy).fs.reposFile = fs.reposFile := by
  have hE : Encrypt a.secretValue pk.key entropy =
      Except.ok (encryptNaCl a.secretValue kb entropy) := by
    rw [hkm]
    simp only [Encrypt, hdec]
    rw [if_pos h32]
  simp only [ExecuteAddSecret, hpk, hE, hkid, saveSecretLocally]
  rw [if_neg (by simp [hrepo]), if_pos hup, if_pos hw]
  exact ⟨rfl, by simp [assocFind_assocSet_self], rfl⟩

/-- Witness for the amended claim C5 at the end-to-end scenario inputs. -/
theorem addSecret_success_persists_secret_only_witness :
    (ExecuteAddSecret ⟨"tok", "acme/widgets", "API_KEY", "sk_live_123"⟩ envOk sampleFS
          0).result = Except.ok () ∧
      ((ExecuteAddSecret ⟨"tok", "acme/widgets", "API_KEY", "sk_live_123"⟩ envOk sampleFS
            0).fs.secretsFile.bind fun m => assocFind m "API_KEY") = some "sk_live_123" ∧
      (ExecuteAddSecret ⟨"tok", "acme/widgets", "API_KEY", "sk_live_123"⟩ envOk sampleFS
            0).fs.reposFile = sampleFS.reposFile :=
  addSecret_success_persists_secret_only _ envOk sampleFS 0 ⟨some "kid1", some keyFor5⟩
    "kid1" keyFor5 (curvePub 5) (by decide) rfl rfl (by decide) (by decide) rfl rfl rfl

/-- Claim C9 counterexample: with `secrets.json` unwritable after a
successful remote upsert, the operation still reports success and the
store is silently left unchanged — no LocalStoreError terminates the
operation. -/
theorem local_save_failure_reports_success_cex :
    (ExecuteAddSecret ⟨"tok", "acme/widgets", "API_KEY", "sk"⟩ envOk sampleFSUnwritable
          0).result = Except.ok () ∧
      (ExecuteAddSecret ⟨"tok", "acme/widgets", "API_KEY", "sk"⟩ envOk sampleFSUnwritable
            0).fs = sampleFSUnwritable := by
  refine ⟨by decide, by decide⟩

/-- Claim C9 (amended): when writing the local backing file fails during
the Persisting step, the error is logged and swallowed
(`saveSecretLocally` returns nothing): the operation reports success
and the local store is left without the entry. -/
theorem local_save_failure_swallowed_amended (a : SecretArgs) (env : SecretEnv)
    (fs : LocalFS) (entropy : Nat) (pk : PublicKeyResp) (kid km : String) (kb : List Nat)
    (hrepo : (splitGo a.repo).length = 2) (hpk : env.fetchKey = some pk)
    (hkm : pk.key = some km) (hdec : base64DecodeString km = some kb)
    (h32 : kb.length = 32) (hkid : pk.keyId = some kid) (hup : env.upsertOk = true)
    (hw : fs.secretsWritable = false) :
    (ExecuteAddSecret a env fs entropy).result = Except.ok () ∧
      (ExecuteAddSecret a env fs entropy).fs = fs := by
  have hE : Encrypt a.secretValue pk.key entropy =
      Except.ok (encryptNaCl a.secretValue kb entropy) := by
    rw [hkm]
    simp only [Encrypt, hdec]
    rw [if_pos h32]
  simp only [ExecuteAddSecret, hpk, hE, hkid, saveSecretLocally]
  rw [if_neg (by simp [hrepo]), if_pos hup, if_neg (by simp [hw])]
  exact ⟨rfl, rfl⟩

/-- Witness for the amended claim C9 at a concrete unwritable store. -/
theorem local_save_failure_swallowed_amended_witness :
    (ExecuteAddSecret ⟨"tok", "acme/widgets", "API_KEY", "sk"⟩ envOk sampleFSUnwritable
          0).result = Except.ok () ∧
      (ExecuteAddSecret ⟨"tok", "acme/widgets", "API_KEY", "sk"⟩ envOk sampleFSUnwritable
            0).fs = sampleFSUnwritable :=
  local_save_failure_swallowed_amended _ envOk sampleFSUnwritable 0
    ⟨some "kid1", some keyFor5⟩ "kid1" keyFor5 (curvePub 5) (by decide) rfl rfl
    (by decide) (by decide) rfl rfl rfl

/-- Claim C10: persisting a secret locally touches only the entry for
that name — every entry under a different key reads the same before and
after, whether the backing file existed or not, and (when the write
goes through) the entry for the name itself now holds the value: the
save merges with the stored map instead of replacing it. -/
theorem saveSecretLocally_frame (fs : LocalFS) (name value k : String) (hk : k ≠ name) :
    ((saveSecretLocally name value fs).1.secretsFile.bind fun m => assocFind m k) =
      (fs.secretsFile.bind fun m => assocFind m k) ∧
      (fs.secretsWritable = true →
        ((saveSecretLocally name value fs).1.secretsFile.bind fun m => assocFind m name) =
          some value) := by
  simp only [saveSecretLocally]
  cases hw : fs.secretsWritable
  · simp
  · constructor
    · cases hf : fs.secretsFile <;>
        simp [hf, assocFind, Ne.symm hk, assocFind_assocSet_ne _ _ _ _ hk,
          assocFind_assocSet_self]
    · intro _
      simp [assocFind_assocSet_self]

/-- Claim C6: re-running the workflow publish pipeline with the same
repository, workflow name and identical content succeeds — commit of an
unchanged tree does not error (go-git v5.4.2 permits the empty commit)
and an already-up-to-date push is treated as success, so the second run
reports success like the first. -/
theorem workflow_publish_idempotent (a : WfArgs) (env : WfEnv) (rem : Remote)
    (hrepo : (splitGo a.repo).length = 2) (h₁ : env.tmpDirOk = true)
    (h₂ : env.cloneOk = true) (h₃ : env.writeOk = true) (h₄ : env.pushOk = true) :
    (ExecuteAddWorkflow a env rem).result = Except.ok () ∧
      (ExecuteAddWorkflow a env (ExecuteAddWorkflow a env rem).remote).result =
        Except.ok () := by
  have hrun : ∀ r : Remote, (ExecuteAddWorkflow a env r).result = Except.ok () := by
    intro r
    simp [ExecuteAddWorkflow, hrepo, h₁, h₂, h₃, h₄]
  exact ⟨hrun rem, hrun _⟩

/-- Witness for claim C6 at concrete inputs (second run applied to the
remote state produced by the first). -/
theorem workflow_publish_idempotent_witness :
    (ExecuteAddWorkflow ⟨"t", "o/r", "ci.yml", "x"⟩ wfEnvOk ⟨[], 0⟩).result = Except.ok () ∧
      (ExecuteAddWorkflow ⟨"t", "o/r", "ci.yml", "x"⟩ wfEnvOk
          (ExecuteAddWorkflow ⟨"t", "o/r", "ci.yml", "x"⟩ wfEnvOk ⟨[], 0⟩).remote).result =
        Except.ok () :=
  workflow_publish_idempotent _ _ _ (by decide) rfl rfl rfl rfl

/-- The repository record update appends exactly the one secret name. -/
theorem repoSecretsOf_updateRepoSecrets (rc : List (String × RepoCfg))
    (target n now : String) :
    repoSecretsOf (updateRepoSecrets rc target n now) target =
      repoSecretsOf rc target ++ [n] := by
  simp only [updateRepoSecrets, repoSecretsOf]
  cases h : assocFind rc target <;> simp [h, assocFind_assocSet_self]

/-- The repository record update appends exactly the one workflow name. -/
theorem repoWorkflowsOf_updateRepoWorkflows (rc : List (String × RepoCfg))
    (target n now : String) :
    repoWorkflowsOf (updateRepoWorkflows rc target n now) target =
      repoWorkflowsOf rc target ++ [n] := by
  simp only [updateRepoWorkflows, repoWorkflowsOf]
  cases h : assocFind rc target <;> simp [h, assocFind_assocSet_self]

/-- The workflow pipeline result does not depend on the remote state:
every failure is decided by the repository format and the collaborator
flags, and a push of the fresh commit succeeds against any remote. -/
theorem exec_workflow_result_const (a : WfArgs) (env : WfEnv) (rem rem₂ : Remote) :
    (ExecuteAddWorkflow a env rem).result = (ExecuteAddWorkflow a env rem₂).result := by
  rcases env with ⟨t, c, w, p⟩
  by_cases h : (splitGo a.repo).length = 2 <;>
    cases t <;> cases c <;> cases w <;> cases p <;>
      simp [ExecuteAddWorkflow, h]

/-- Best-effort loop of the secret batch: the loop always reports
success, never touches the file system, and appends to the target's
record exactly the names whose item run succeeds. -/
theorem addSecretsToRepo_spec (token target now : String) (envOf : String → SecretEnv)
    (entOf : String → Nat) (fs : LocalFS) :
    ∀ (names : List String) (rc : List (String × RepoCfg)),
      (AddSecretsToRepo token target names envOf entOf fs rc now).1 = Except.ok () ∧
        (AddSecretsToRepo token target names envOf entOf fs rc now).2.1 = fs ∧
        repoSecretsOf (AddSecretsToRepo token target names envOf entOf fs rc now).2.2
            target =
          repoSecretsOf rc target ++
            names.filter (secItemOk token target envOf entOf fs) := by
  intro names
  induction names with
  | nil => intro rc; exact ⟨rfl, rfl, by simp [AddSecretsToRepo]⟩
  | cons n rest ih =>
      intro rc
      cases hv : getSecretValue fs n with
      | error e =>
          have hfilter : secItemOk token target envOf entOf fs n = false := by
            simp [secItemOk, hv]
          simp only [AddSecretsToRepo, hv]
          rcases ih rc with ⟨ih₁, ih₂, ih₃⟩
          refine ⟨ih₁, ih₂, ?_⟩
          rw [ih₃]
          simp [List.filter_cons, hfilter]
      | ok v =>
          have hfs := exec_fs_of_store token target n v (envOf n) fs (entOf n) hv
          cases hr : (ExecuteAddSecret ⟨token, target, n, v⟩ (envOf n) fs (entOf n)).result with
          | error e =>
              have hfilter : secItemOk token target envOf entOf fs n = false := by
                simp [secItemOk, hv, hr]
              simp only [AddSecretsToRepo, hv, hr, hfs]
              rcases ih rc with ⟨ih₁, ih₂, ih₃⟩
              refine ⟨ih₁, ih₂, ?_⟩
              rw [ih₃]
              simp [List.filter_cons, hfilter]
          | ok u =>
              have hfilter : secItemOk token target envOf entOf fs n = true := by
                simp [secItemOk, hv, hr]
              simp only [AddSecretsToRepo, hv, hr, hfs]
              rcases ih (updateRepoSecrets rc target n now) with ⟨ih₁, ih₂, ih₃⟩
              refine ⟨ih₁, ih₂, ?_⟩
              rw [ih₃, repoSecretsOf_updateRepoSecrets]
              simp [List.filter_cons, hfilter]

/-- Best-effort loop of the workflow batch: always reports success and
appends to the target's record exactly the names whose item run
succeeds. -/
theorem addWorkflowsToRepo_spec (token target now : String) (envOf : String → WfEnv)
    (fs : LocalFS) :
    ∀ (names : List String) (rem : Remote) (rc : List (String × RepoCfg)),
      (AddWorkflowsToRepo token target names envOf fs rem rc now).1 = Except.ok () ∧
        repoWorkflowsOf (AddWorkflowsToRepo token target names envOf fs rem rc now).2.2
            target =
          repoWorkflowsOf rc target ++ names.filter (wfItemOk token target envOf fs) := by
  intro names
  induction names with
  | nil => intro rem rc; exact ⟨rfl, by simp [AddWorkflowsToRepo]⟩
  | cons n rest ih =>
      intro rem rc
      cases hv : getWorkflowContent fs n with
      | error e =>
          have hfilter : wfItemOk token target envOf fs n = false := by
            simp [wfItemOk, hv]
          simp only [AddWorkflowsToRepo, hv]
          rcases ih rem rc with ⟨ih₁, ih₂⟩
          refine ⟨ih₁, ?_⟩
          rw [ih₂]
          simp [List.filter_cons, hfilter]
      | ok content =>
          cases hr : (ExecuteAddWorkflow ⟨token, target, n, content⟩ (envOf n) rem).result with
          | error e =>
              have hfilter : wfItemOk token target envOf fs n = false := by
                simp only [wfItemOk, hv]
                rw [exec_workflow_result_const ⟨token, target, n, content⟩ (envOf n)
                  ⟨[], 0⟩ rem, hr]
              simp only [AddWorkflowsToRepo, hv, hr]
              rcases ih (ExecuteAddWorkflow ⟨token, target, n, content⟩ (envOf n) rem).remote
                rc with ⟨ih₁, ih₂⟩
              refine ⟨ih₁, ?_⟩
              rw [ih₂]
              simp [List.filter_cons, hfilter]
          | ok u =>
              have hfilter : wfItemOk token target envOf fs n = true := by
                simp only [wfItemOk, hv]
                rw [exec_workflow_result_const ⟨token, target, n, content⟩ (envOf n)
                  ⟨[], 0⟩ rem, hr]
              simp only [AddWorkflowsToRepo, hv, hr]
              rcases ih (ExecuteAddWorkflow ⟨token, target, n, content⟩ (envOf n) rem).remote
                (updateRepoWorkflows rc target n now) with ⟨ih₁, ih₂⟩
              refine ⟨ih₁, ?_⟩
              rw [ih₂, repoWorkflowsOf_updateRepoWorkflows]
              simp [List.filter_cons, hfilter]

/-- Claim C7: both batch apply operations always return nil — per-item
failures (name missing from the store, or pipeline failure) are skipped
without aborting — and the target repository's record receives exactly
the successfully applied names, in order. -/
theorem batch_apply_best_effort (token target now : String) (snames wnames : List String)
    (envOf : String → SecretEnv) (entOf : String → Nat) (wenvOf : String → WfEnv)
    (fs : LocalFS) (rem : Remote) (rc rcw : List (String × RepoCfg)) :
    (AddSecretsToRepo token target snames envOf entOf fs rc now).1 = Except.ok () ∧
      repoSecretsOf (AddSecretsToRepo token target snames envOf entOf fs rc now).2.2
          target =
        repoSecretsOf rc target ++ snames.filter (secItemOk token target envOf entOf fs) ∧
      (AddWorkflowsToRepo token target wnames wenvOf fs rem rcw now).1 = Except.ok () ∧
      repoWorkflowsOf (AddWorkflowsToRepo token target wnames wenvOf fs rem rcw now).2.2
          target =
        repoWorkflowsOf rcw target ++ wnames.filter (wfItemOk token target wenvOf fs) :=
  ⟨(addSecretsToRepo_spec token target now envOf entOf fs snames rc).1,
   (addSecretsToRepo_spec token target now envOf entOf fs snames rc).2.2,
   (addWorkflowsToRepo_spec token target now wenvOf fs wnames rem rcw).1,
   (addWorkflowsToRepo_spec token target now wenvOf fs wnames rem rcw).2⟩

/-- Claim C8 counterexample: at a concrete input with no local
directory, the code clones into the directory named after the
repository's short name inside the current directory — not into a
scoped temporary location as the claim's wording mandates. -/
theorem acquire_clone_destination_cex :
    acquireWorkdir "acme/widgets" "tok" "home" "/home" false true =
        Acquire.cloneInto "https://github.com/acme/widgets.git" "widgets" "tok" ∧
      acquireWorkdirClaimC8 "acme/widgets" "tok" "home" "/home" "/tmp/ghm-repo-0" false
          true =
        Acquire.cloneInto "https://github.com/acme/widgets.git" "/tmp/ghm-repo-0" "tok" ∧
      acquireWorkdir "acme/widgets" "tok" "home" "/home" false true ≠
        acquireWorkdirClaimC8 "acme/widgets" "tok" "home" "/home" "/tmp/ghm-repo-0" false
          true := by
  refine ⟨by decide, by decide, by decide⟩

/-- Claim C8 (amended): in place when the current directory's base name
equals the repository's short name; otherwise, when no directory of the
short name exists, clone over HTTPS with the token into the directory
named after the short name (relative to the current directory, not a
temporary location); otherwise reuse the existing directory without
re-cloning. -/
theorem acquire_matches_code_shape (repo token cwdBase cwdPath : String)
    (dirExists : Bool) :
    (cwdBase = RepoDirectory repo →
      acquireWorkdir repo token cwdBase cwdPath dirExists true = Acquire.inPlace cwdPath) ∧
      (cwdBase ≠ RepoDirectory repo → dirExists = false →
        acquireWorkdir repo token cwdBase cwdPath dirExists true =
          Acquire.cloneInto ("https://github.com/" ++ repo ++ ".git")
            (RepoDirectory repo) token) ∧
      (cwdBase ≠ RepoDirectory repo → dirExists = true →
        acquireWorkdir repo token cwdBase cwdPath dirExists true =
          Acquire.reuseExisting (RepoDirectory repo)) := by
  refine ⟨fun h => ?_, fun h hd => ?_, fun h hd => ?_⟩
  · simp [acquireWorkdir, h]
  · simp [acquireWorkdir, h, hd]
  · simp [acquireWorkdir, h, hd]

/-- Witness for the amended claim C8 exercising all three branches at
concrete inputs. -/
theorem acquire_matches_code_shape_witness :
    acquireWorkdir "acme/widgets" "tok" "widgets" "/w/widgets" false true =
        Acquire.inPlace "/w/widgets" ∧
      acquireWorkdir "acme/widgets" "tok" "home" "/home" false true =
        Acquire.cloneInto "https://github.com/acme/widgets.git" "widgets" "tok" ∧
      acquireWorkdir "acme/widgets" "tok" "home" "/home" true true =
        Acquire.reuseExisting "widgets" :=
  ⟨by
    have h := (acquire_matches_code_shape "acme/widgets" "tok" "widgets" "/w/widgets"
      false).1 (by decide)
    simpa using h,
   by
    have h := (acquire_matches_code_shape "acme/widgets" "tok" "home" "/home" false).2.1
      (by decide) rfl
    simpa using h,
   by
    have h := (acquire_matches_code_shape "acme/widgets" "tok" "home" "/home" true).2.2
      (by decide) rfl
    simpa using h⟩

/-- Witness for claim C10 at a store holding an unrelated entry. -/
theorem saveSecretLocally_frame_witness :
    ((saveSecretLocally "API_KEY" "sk" ⟨some [("A", "1")], some [], some [], true⟩).1.secretsFile.bind
        fun m => assocFind m "A") =
      ((⟨some [("A", "1")], some [], some [], true⟩ : LocalFS).secretsFile.bind fun m =>
        assocFind m "A") ∧
      ((⟨some [("A", "1")], some [], some [], true⟩ : LocalFS).secretsWritable = true →
        ((saveSecretLocally "API_KEY" "sk"
              ⟨some [("A", "1")], some [], some [], true⟩).1.secretsFile.bind fun m =>
          assocFind m "API_KEY") = some "sk") :=
  saveSecretLocally_frame ⟨some [("A", "1")], some [], some [], true⟩ "API_KEY" "sk" "A"
    (by decide)

end GHM
